import Mathlib

/-!
Verification of the magnus typed value / class / string object model.

This file gives a shallow embedding, in Lean, of the Rust sources
`src/class.rs`, `src/r_string.rs` and `src/embed.rs`.  The Ruby runtime
(the `rb_*` C functions) is an external collaborator of the crate: its
behaviour at the boundary is modelled here as executable Lean functions,
following the C API semantics documented in the crate and its spec.  The
Rust functions themselves are translated clause by clause from the source.

Machine-level byte buffers are modelled as `List Nat` (each entry one
byte), Rust `&str` / `String` values as `List Char` (a sequence of
Unicode scalar values, which is exactly what a Rust string is), and the
nullable C function pointers used for allocator slots as `Option` of an
abstract allocator-function datatype.
-/

set_option maxRecDepth 4096

namespace Magnus

/-! ## Error model

`error.rs` is not part of the sources under verification; the error kinds
are modelled from the spec taxonomy (section 7): `EncodingError`,
`TypeError` and runtime-raised exceptions.  A magnus `Error` carries a
Ruby exception class together with a message; `Error::encoding_error` and
`Error::type_error` build errors of Ruby class `EncodingError` resp.
`TypeError`.  Ruby's `Encoding::CompatibilityError` and
`Encoding::InvalidByteSequenceError` are subclasses of `EncodingError`.
-/

/-- Ruby exception classes relevant to the string/class core. -/
inductive ExcClass where
  | encodingError
  | encodingCompatibilityError
  | invalidByteSequenceError
  | typeError
  | otherExc (n : Nat)
deriving DecidableEq, Repr

/-- Whether an exception class is `EncodingError` or one of its
subclasses in Ruby's exception hierarchy. -/
def ExcClass.isEncodingErrorKind : ExcClass → Bool
  | .encodingError => true
  | .encodingCompatibilityError => true
  | .invalidByteSequenceError => true
  | _ => false

/-- A magnus `Error` value: an exception class plus a human readable
message. -/
structure RubyError where
  excClass : ExcClass
  msg : String
deriving DecidableEq, Repr

/-- `Error::encoding_error(msg)`. -/
def Error.encoding_error (m : String) : RubyError := ⟨.encodingError, m⟩

/-- `Error::type_error(msg)`. -/
def Error.type_error (m : String) : RubyError := ⟨.typeError, m⟩

/-! ## Encodings

Encoding indexes as reported by `rb_enc_get_index`.  The numbering
follows CRuby's built-in table: ASCII-8BIT (binary) is 0, UTF-8 is 1,
US-ASCII is 2.  Index 3 stands for a representative encoding that is not
ASCII-compatible (UTF-16BE). -/

def rb_ascii8bit_encindex : Nat := 0

def rb_utf8_encindex : Nat := 1

def rb_usascii_encindex : Nat := 2

def utf16be_encindex : Nat := 3

/-- `rb_enc_asciicompat`: the ASCII-compatible encodings of the model. -/
def encAsciiCompat (i : Nat) : Bool :=
  i = rb_ascii8bit_encindex || i = rb_utf8_encindex || i = rb_usascii_encindex

/-- `rb_enc_name` for the model's encoding indexes. -/
def encName (i : Nat) : String :=
  if i = rb_ascii8bit_encindex then "ASCII-8BIT"
  else if i = rb_utf8_encindex then "UTF-8"
  else if i = rb_usascii_encindex then "US-ASCII"
  else "UTF-16BE"

/-- A byte list contains only 7-bit (ASCII range) bytes. -/
def asciiOnly (bytes : List Nat) : Bool := bytes.all (· < 0x80)

/-! ## UTF-8 encoding and decoding

Model of the UTF-8 codec shared by Rust (`str::from_utf8`,
`char::encode_utf8`) and the Ruby runtime.  The decoder is strict: it
rejects overlong forms, surrogate code points, values above `0x10FFFF`,
truncated sequences and stray continuation bytes, exactly as
`str::from_utf8` does. -/

/-- UTF-8 encoding of a single Unicode scalar value
(`char::encode_utf8`). -/
def utf8EncodeChar (c : Char) : List Nat :=
  if c.toNat < 0x80 then [c.toNat]
  else if c.toNat < 0x800 then [0xC0 + c.toNat / 64, 0x80 + c.toNat % 64]
  else if c.toNat < 0x10000 then
    [0xE0 + c.toNat / 4096, 0x80 + c.toNat / 64 % 64, 0x80 + c.toNat % 64]
  else
    [0xF0 + c.toNat / 262144, 0x80 + c.toNat / 4096 % 64,
      0x80 + c.toNat / 64 % 64, 0x80 + c.toNat % 64]

/-- UTF-8 encoding of a text (the byte content of a Rust `&str`). -/
def utf8Encode : List Char → List Nat
  | [] => []
  | c :: cs => utf8EncodeChar c ++ utf8Encode cs

/-- Decode one UTF-8 scalar value from the front of a byte list,
returning the decoded character and the remaining bytes.  Strict:
rejects malformed sequences. -/
def utf8DecodeChar : List Nat → Option (Char × List Nat)
  | [] => none
  | b0 :: t =>
    if b0 < 0x80 then some (Char.ofNat b0, t)
    else if b0 < 0xC2 then none
    else if b0 < 0xE0 then
      match t with
      | b1 :: t1 =>
        if 0x80 ≤ b1 ∧ b1 < 0xC0 then
          some (Char.ofNat ((b0 - 0xC0) * 64 + (b1 - 0x80)), t1)
        else none
      | [] => none
    else if b0 < 0xF0 then
      match t with
      | b1 :: b2 :: t2 =>
        if (0x80 ≤ b1 ∧ b1 < 0xC0) ∧ (0x80 ≤ b2 ∧ b2 < 0xC0) then
          if 0x800 ≤ (b0 - 0xE0) * 4096 + (b1 - 0x80) * 64 + (b2 - 0x80) ∧
              ((b0 - 0xE0) * 4096 + (b1 - 0x80) * 64 + (b2 - 0x80) < 0xD800 ∨
                0xE000 ≤ (b0 - 0xE0) * 4096 + (b1 - 0x80) * 64 + (b2 - 0x80)) then
            some (Char.ofNat ((b0 - 0xE0) * 4096 + (b1 - 0x80) * 64 + (b2 - 0x80)), t2)
          else none
        else none
      | _ => none
    else if b0 < 0xF5 then
      match t with
      | b1 :: b2 :: b3 :: t3 =>
        if (0x80 ≤ b1 ∧ b1 < 0xC0) ∧ (0x80 ≤ b2 ∧ b2 < 0xC0) ∧ (0x80 ≤ b3 ∧ b3 < 0xC0) then
          if 0x10000 ≤ (b0 - 0xF0) * 262144 + (b1 - 0x80) * 4096 + (b2 - 0x80) * 64 + (b3 - 0x80) ∧
              (b0 - 0xF0) * 262144 + (b1 - 0x80) * 4096 + (b2 - 0x80) * 64 + (b3 - 0x80) < 0x110000 then
            some (Char.ofNat
              ((b0 - 0xF0) * 262144 + (b1 - 0x80) * 4096 + (b2 - 0x80) * 64 + (b3 - 0x80)), t3)
          else none
        else none
      | _ => none
    else none

/-- Fuel-indexed UTF-8 decoding of a whole byte list; `none` on any
malformed input.  The fuel only needs to be at least the byte count. -/
def utf8DecodeAux : Nat → List Nat → Option (List Char)
  | _, [] => some []
  | 0, _ :: _ => none
  | fuel + 1, b :: t =>
    match utf8DecodeChar (b :: t) with
    | none => none
    | some (c, rest) => (utf8DecodeAux fuel rest).map (c :: ·)

/-- UTF-8 validation and decoding of a byte list (`str::from_utf8`):
`some` of the decoded text on valid input, `none` on invalid UTF-8. -/
def utf8Decode (l : List Nat) : Option (List Char) := utf8DecodeAux l.length l

/-! ### Correctness of the UTF-8 codec -/

theorem char_toNat_valid (c : Char) :
    c.toNat < 0xD800 ∨ (0xE000 ≤ c.toNat ∧ c.toNat < 0x110000) := c.valid

theorem utf8DecodeChar_two (v : Nat) (r : List Nat) (h1 : 0x80 ≤ v) (h2 : v < 0x800) :
    utf8DecodeChar ((0xC0 + v / 64) :: (0x80 + v % 64) :: r) = some (Char.ofNat v, r) := by
  have hb0a : ¬ (0xC0 + v / 64 < 0x80) := by omega
  have hb0b : ¬ (0xC0 + v / 64 < 0xC2) := by omega
  have hb0c : 0xC0 + v / 64 < 0xE0 := by omega
  simp only [utf8DecodeChar]
  rw [if_neg hb0a, if_neg hb0b, if_pos hb0c,
    if_pos (show 0x80 ≤ 0x80 + v % 64 ∧ 0x80 + v % 64 < 0xC0 by omega)]
  have hval : (0xC0 + v / 64 - 0xC0) * 64 + (0x80 + v % 64 - 0x80) = v := by omega
  rw [hval]

theorem utf8DecodeChar_three (v : Nat) (r : List Nat) (h1 : 0x800 ≤ v) (h2 : v < 0x10000)
    (hv : v < 0xD800 ∨ 0xE000 ≤ v) :
    utf8DecodeChar ((0xE0 + v / 4096) :: (0x80 + v / 64 % 64) :: (0x80 + v % 64) :: r) =
      some (Char.ofNat v, r) := by
  have hb0a : ¬ (0xE0 + v / 4096 < 0x80) := by omega
  have hb0b : ¬ (0xE0 + v / 4096 < 0xC2) := by omega
  have hb0c : ¬ (0xE0 + v / 4096 < 0xE0) := by omega
  have hb0d : 0xE0 + v / 4096 < 0xF0 := by omega
  simp only [utf8DecodeChar]
  rw [if_neg hb0a, if_neg hb0b, if_neg hb0c, if_pos hb0d,
    if_pos (show (0x80 ≤ 0x80 + v / 64 % 64 ∧ 0x80 + v / 64 % 64 < 0xC0) ∧
      (0x80 ≤ 0x80 + v % 64 ∧ 0x80 + v % 64 < 0xC0) by omega)]
  have hval : (0xE0 + v / 4096 - 0xE0) * 4096 + (0x80 + v / 64 % 64 - 0x80) * 64 +
      (0x80 + v % 64 - 0x80) = v := by omega
  rw [hval, if_pos (⟨h1, hv⟩ : 0x800 ≤ v ∧ (v < 0xD800 ∨ 0xE000 ≤ v))]

theorem utf8DecodeChar_four (v : Nat) (r : List Nat) (h1 : 0x10000 ≤ v) (h2 : v < 0x110000) :
    utf8DecodeChar ((0xF0 + v / 262144) :: (0x80 + v / 4096 % 64) ::
      (0x80 + v / 64 % 64) :: (0x80 + v % 64) :: r) = some (Char.ofNat v, r) := by
  have hb0a : ¬ (0xF0 + v / 262144 < 0x80) := by omega
  have hb0b : ¬ (0xF0 + v / 262144 < 0xC2) := by omega
  have hb0c : ¬ (0xF0 + v / 262144 < 0xE0) := by omega
  have hb0d : ¬ (0xF0 + v / 262144 < 0xF0) := by omega
  have hb0e : 0xF0 + v / 262144 < 0xF5 := by omega
  simp only [utf8DecodeChar]
  rw [if_neg hb0a, if_neg hb0b, if_neg hb0c, if_neg hb0d, if_pos hb0e,
    if_pos (show (0x80 ≤ 0x80 + v / 4096 % 64 ∧ 0x80 + v / 4096 % 64 < 0xC0) ∧
      (0x80 ≤ 0x80 + v / 64 % 64 ∧ 0x80 + v / 64 % 64 < 0xC0) ∧
      (0x80 ≤ 0x80 + v % 64 ∧ 0x80 + v % 64 < 0xC0) by omega)]
  have hval : (0xF0 + v / 262144 - 0xF0) * 262144 + (0x80 + v / 4096 % 64 - 0x80) * 4096 +
      (0x80 + v / 64 % 64 - 0x80) * 64 + (0x80 + v % 64 - 0x80) = v := by omega
  rw [hval, if_pos (⟨h1, h2⟩ : 0x10000 ≤ v ∧ v < 0x110000)]

/-- Decoding one character undoes encoding one character, leaving the
rest of the input untouched. -/
theorem utf8DecodeChar_encodeChar (c : Char) (r : List Nat) :
    utf8DecodeChar (utf8EncodeChar c ++ r) = some (c, r) := by
  have hvalid := char_toNat_valid c
  have hofNat : Char.ofNat c.toNat = c := Char.ofNat_toNat c
  rw [utf8EncodeChar]
  by_cases h1 : c.toNat < 0x80
  · rw [if_pos h1]
    simp only [List.cons_append, List.nil_append, utf8DecodeChar]
    rw [if_pos h1, hofNat]
  · rw [if_neg h1]
    by_cases h2 : c.toNat < 0x800
    · rw [if_pos h2]
      simp only [List.cons_append, List.nil_append]
      rw [utf8DecodeChar_two c.toNat r (by omega) h2, hofNat]
    · rw [if_neg h2]
      by_cases h3 : c.toNat < 0x10000
      · rw [if_pos h3]
        simp only [List.cons_append, List.nil_append]
        rw [utf8DecodeChar_three c.toNat r (by omega) h3 (hvalid.imp id And.left), hofNat]
      · rw [if_neg h3]
        have h4 : c.toNat < 0x110000 := by rcases hvalid with h | ⟨_, h⟩ <;> omega
        simp only [List.cons_append, List.nil_append]
        rw [utf8DecodeChar_four c.toNat r (by omega) h4, hofNat]

theorem utf8EncodeChar_length_pos (c : Char) : 0 < (utf8EncodeChar c).length := by
  rw [utf8EncodeChar]
  split <;> try simp
  split <;> try simp
  split <;> simp

theorem utf8DecodeAux_encode (s : List Char) :
    ∀ fuel : Nat, (utf8Encode s).length ≤ fuel →
      utf8DecodeAux fuel (utf8Encode s) = some s := by
  induction s with
  | nil => intro fuel _; simp [utf8Encode, utf8DecodeAux]
  | cons c cs ih =>
    intro fuel hfuel
    have hpos := utf8EncodeChar_length_pos c
    rw [utf8Encode] at hfuel ⊢
    obtain ⟨b, t, hbt⟩ : ∃ b t, utf8EncodeChar c = b :: t := by
      cases h : utf8EncodeChar c with
      | nil => rw [h] at hpos; simp at hpos
      | cons b t => exact ⟨b, t, rfl⟩
    have hlen : (utf8EncodeChar c).length + (utf8Encode cs).length ≤ fuel := by
      simpa using hfuel
    obtain ⟨f, rfl⟩ : ∃ f, fuel = f + 1 := ⟨fuel - 1, by omega⟩
    rw [hbt, List.cons_append]
    rw [utf8DecodeAux]
    rw [← List.cons_append, ← hbt, utf8DecodeChar_encodeChar c (utf8Encode cs)]
    show (utf8DecodeAux f (utf8Encode cs)).map (c :: ·) = some (c :: cs)
    rw [ih f (by omega)]
    rfl

/-- Round trip: decoding the UTF-8 encoding of a text yields the text
back. -/
theorem utf8Decode_encode (s : List Char) : utf8Decode (utf8Encode s) = some s :=
  utf8DecodeAux_encode s (utf8Encode s).length le_rfl

/-! ## UTF-16BE decoding (for the modelled transcoder)

Index 3 of the model's encoding table is UTF-16BE, the representative
encoding that is not UTF-8 compatible.  The runtime's transcoder to
UTF-8 needs a UTF-16BE decoder. -/

/-- Fuel-indexed UTF-16BE decoding: big-endian 16-bit units, surrogate
pairs for scalars above `0xFFFF`; `none` on a truncated or unpaired
input. -/
def utf16beDecodeAux : Nat → List Nat → Option (List Char)
  | _, [] => some []
  | 0, _ :: _ => none
  | _ + 1, [_] => none
  | fuel + 1, b0 :: b1 :: t =>
    if b0 * 256 + b1 < 0xD800 ∨ 0xE000 ≤ b0 * 256 + b1 then
      (utf16beDecodeAux fuel t).map (Char.ofNat (b0 * 256 + b1) :: ·)
    else if b0 * 256 + b1 < 0xDC00 then
      match t with
      | b2 :: b3 :: t2 =>
        if 0xDC00 ≤ b2 * 256 + b3 ∧ b2 * 256 + b3 < 0xE000 then
          (utf16beDecodeAux fuel t2).map
            (Char.ofNat (0x10000 + (b0 * 256 + b1 - 0xD800) * 1024 + (b2 * 256 + b3 - 0xDC00)) :: ·)
        else none
      | _ => none
    else none

/-- UTF-16BE decoding of a whole byte list. -/
def utf16beDecode (l : List Nat) : Option (List Char) := utf16beDecodeAux l.length l

/-! ## The string object model (`r_string.rs`)

A `RString` handle points at the runtime's string record.  The record is
modelled by `RStringRep`: the byte content (which the source reads either
out of the inline "embedded" header buffer or through the heap
pointer/length pair — both layouts decode to the same byte sequence,
which is what `as_slice_unconstrained` returns), the encoding index
reported by `rb_enc_get_index`, the reserved capacity, and the
`RSTRING_NOEMBED` header flag selecting heap-backed storage. -/

/-- Maximum byte length the runtime can store inline in the object
header; longer strings are heap-backed (`RSTRING_NOEMBED`). -/
def RSTRING_EMBED_MAXLEN : Nat := 24

/-- Model of the runtime's string record (the referent of an
`RString`). -/
structure RStringRep where
  bytes : List Nat
  encindex : Nat
  capa : Nat
  noembed : Bool
deriving DecidableEq, Repr

/-- `rb_str_new`-style construction from raw bytes: the runtime stores
the bytes inline when they fit and on the heap otherwise. -/
def mkStr (bytes : List Nat) (encindex : Nat) : RStringRep :=
  { bytes := bytes, encindex := encindex, capa := bytes.length,
    noembed := RSTRING_EMBED_MAXLEN < bytes.length }

namespace RStringRep

/-- `RString::new(s)`: `rb_utf8_str_new` over the bytes of the Rust
string, so the byte content is the UTF-8 encoding of `s` and the
encoding tag is UTF-8. -/
def new (s : List Char) : RStringRep := mkStr (utf8Encode s) rb_utf8_encindex

/-- `RString::buf_new(n)`: `rb_str_buf_new` produces an empty string
with capacity `n` and encoding ASCII-8BIT (binary). -/
def buf_new (n : Nat) : RStringRep :=
  { bytes := [], encindex := rb_ascii8bit_encindex, capa := n, noembed := RSTRING_EMBED_MAXLEN < n }

/-- `RString::with_capacity(n)`: `buf_new` then
`rb_enc_associate_index(s, rb_utf8_encindex())`. -/
def with_capacity (n : Nat) : RStringRep :=
  { buf_new n with encindex := rb_utf8_encindex }

/-- `RString::from_slice(s)`: `rb_str_new` over the byte slice, encoding
ASCII-8BIT (binary). -/
def from_slice (s : List Nat) : RStringRep := mkStr s rb_ascii8bit_encindex

/-- `RString::from_char(c)`: `c.encode_utf8` into a stack buffer, then
`RString::new` of the resulting one-character string. -/
def from_char (c : Char) : RStringRep := new [c]

/-- `RString::as_slice` / `as_slice_unconstrained`: the byte content of
the record.  The source decodes the inline length from the packed header
bits in the embedded case and reads the pointer/length pair in the
heap-backed case; at this abstraction both give `bytes`. -/
def as_slice (s : RStringRep) : List Nat := s.bytes

/-- `RString::is_utf8_compatible_encoding`: the encoding index equals
`rb_utf8_encindex()` or `rb_usascii_encindex()`. -/
def is_utf8_compatible_encoding (s : RStringRep) : Bool :=
  s.encindex = rb_utf8_encindex || s.encindex = rb_usascii_encindex

/-- Modelled from the spec: the runtime's `rb_str_conv_enc` to UTF-8
behind `protect` (the body of `RString::encode_utf8`).  A string already
tagged UTF-8 needs no conversion; for the other ASCII-compatible
encodings of the model (ASCII-8BIT, US-ASCII) the runtime returns the
string unchanged (any remaining invalid bytes are caught by the
callers' UTF-8 validation); UTF-16BE content is transcoded, failing with
the runtime's conversion error (an `Encoding::InvalidByteSequenceError`,
a subclass of `EncodingError`) on an invalid byte sequence. -/
def encode_utf8 (s : RStringRep) : Except RubyError RStringRep :=
  if s.encindex = rb_utf8_encindex then .ok s
  else if encAsciiCompat s.encindex then .ok s
  else
    match utf16beDecode s.bytes with
    | some cs => .ok { s with bytes := utf8Encode cs, encindex := rb_utf8_encindex }
    | none => .error ⟨.invalidByteSequenceError, "invalid byte sequence"⟩

/-- The shared first step of `RString::to_string` and
`RString::to_char`: `if self.is_utf8_compatible_encoding() { self } else
{ self.encode_utf8()? }`. -/
def toUtf8 (s : RStringRep) : Except RubyError RStringRep :=
  if s.is_utf8_compatible_encoding then .ok s else s.encode_utf8

/-- `RString::as_str` / `as_str_unconstrained`: error when the encoding
tag is not UTF-8 compatible, otherwise validate the bytes with
`str::from_utf8`, error on invalid UTF-8. -/
def as_str (s : RStringRep) : Except RubyError (List Char) :=
  if s.is_utf8_compatible_encoding = false then
    .error (Error.encoding_error ("expected utf-8, got " ++ encName s.encindex))
  else
    match utf8Decode s.bytes with
    | some cs => .ok cs
    | none => .error (Error.encoding_error "invalid utf-8 byte sequence")

/-- `RString::to_string`: re-encode to UTF-8 if the tag requires it,
then validate with `str::from_utf8` and copy to an owned string. -/
def to_string (s : RStringRep) : Except RubyError (List Char) :=
  match s.toUtf8 with
  | .error e => .error e
  | .ok utf8 =>
    match utf8Decode utf8.bytes with
    | some cs => .ok cs
    | none => .error (Error.encoding_error "invalid utf-8 byte sequence")

/-- Rust's `str::parse::<char>()` (`char::from_str`): succeeds exactly
when the string consists of a single character. -/
def parseChar : List Char → Except RubyError Char
  | [c] => .ok c
  | _ => .error (Error.type_error "could not convert string to char")

/-- `RString::to_char`: re-encode to UTF-8 if the tag requires it,
validate with `str::from_utf8`, then `parse::<char>()`. -/
def to_char (s : RStringRep) : Except RubyError Char :=
  match s.toUtf8 with
  | .error e => .error e
  | .ok utf8 =>
    match utf8Decode utf8.bytes with
    | some cs => parseChar cs
    | none => .error (Error.encoding_error "invalid utf-8 byte sequence")

/-- Modelled from the spec: the runtime's `rb_enc_check`-style encoding
compatibility used by `rb_str_buf_append`.  Two strings are compatible
when their encodings agree, when either is empty, or when both encodings
are ASCII compatible and at least one content is ASCII-only (the
ASCII-subset rule). -/
def encCompatible (a b : RStringRep) : Bool :=
  a.encindex = b.encindex || a.bytes.isEmpty || b.bytes.isEmpty ||
    (encAsciiCompat a.encindex && encAsciiCompat b.encindex &&
      (asciiOnly a.bytes || asciiOnly b.bytes))

/-- Modelled from the spec: the encoding of a compatible concatenation
(the non-ASCII side wins over a pure-ASCII side). -/
def resultEnc (a b : RStringRep) : Nat :=
  if a.encindex = b.encindex then a.encindex
  else if asciiOnly b.bytes then a.encindex
  else b.encindex

/-- `RString::append(self, other)`: `rb_str_buf_append` behind
`protect`.  The runtime raises `Encoding::CompatibilityError` when the
encodings are incompatible; otherwise it appends `other`'s bytes to
`self` in place (the model returns the mutated record). -/
def append (a b : RStringRep) : Except RubyError RStringRep :=
  if encCompatible a b then
    .ok { a with
          bytes := a.bytes ++ b.bytes,
          encindex := resultEnc a b,
          noembed := a.noembed || RSTRING_EMBED_MAXLEN < a.bytes.length + b.bytes.length }
  else
    .error ⟨.encodingCompatibilityError, "incompatible character encodings"⟩

/-- `RString::cat(self, buf)`: `rb_str_cat` appends the raw bytes
unconditionally, ignoring the encoding; there is no error path. -/
def cat (a : RStringRep) (buf : List Nat) : RStringRep :=
  { a with
      bytes := a.bytes ++ buf,
      noembed := a.noembed || RSTRING_EMBED_MAXLEN < a.bytes.length + buf.length }

end RStringRep

/-! ## The typed value overlay (`value.rs` boundary, `class.rs`,
`r_string.rs`)

A `Value` is the raw tagged machine word; `rb_type` is the runtime's
tag/type query on a handle's referent, modelled as a lookup in a heap
assigning each raw word its representation tag. -/

/-- The runtime's representation tags (`ruby_value_type`), restricted to
the kinds the model distinguishes. -/
inductive RubyValueType where
  | tNone
  | tObject
  | tClass
  | tModule
  | tString
  | tArray
  | tHash
  | tSymbol
  | tNil
  | tFloat
deriving DecidableEq, Repr

/-- An opaque handle: the raw `VALUE` machine word. -/
structure Value where
  raw : Nat
deriving DecidableEq, Repr

/-- `Value::rb_type`: the runtime-reported representation tag of the
handle's referent, under the heap `heap`. -/
def rbType (heap : Nat → RubyValueType) (v : Value) : RubyValueType := heap v.raw

/-- A `Value` known (by tag check) to point at a class record. -/
structure RClass where
  val : Value
deriving DecidableEq, Repr

/-- A `Value` known (by tag check) to point at a string record. -/
structure RString where
  val : Value
deriving DecidableEq, Repr

/-- `RClass::from_value(val)`: `Some` exactly when
`val.rb_type() == RUBY_T_CLASS`, wrapping the same handle unchanged;
`None` otherwise.  Pure: no state is read other than the tag, and none
is written. -/
def RClass.from_value (heap : Nat → RubyValueType) (val : Value) : Option RClass :=
  if rbType heap val = .tClass then some ⟨val⟩ else none

/-- `RString::from_value(val)`: `Some` exactly when
`val.rb_type() == RUBY_T_STRING`, wrapping the same handle unchanged;
`None` otherwise. -/
def RString.from_value (heap : Nat → RubyValueType) (val : Value) : Option RString :=
  if rbType heap val = .tString then some ⟨val⟩ else none

/-! ## Class registry and allocator protocol (`class.rs`)

Classes are identified by their handle's raw word.  Each class record
has a nullable allocator-function slot; `rb_get_alloc_func` reads it and
`rb_define_alloc_func` / `rb_undef_alloc_func` write it.  Allocator
functions are C function pointers; the model distinguishes the runtime's
generic `rb_class_allocate_instance`, the magnus `allocate::<T>`
callbacks, and arbitrary other pointers. -/

/-- A host type `T` participating in the `TypedData` protocol: its
identity, the class statically associated with it (`<T as
TypedData>::class()`), and an abstract encoding of `T::default()`. -/
structure HostType where
  tyId : Nat
  classId : Nat
  defaultVal : Nat
deriving DecidableEq, Repr

/-- An allocator function pointer value. -/
inductive AllocFunc where
  | classAllocateDefault
  | typedDefault (T : HostType)
  | otherFn (n : Nat)
deriving DecidableEq, Repr

/-- An allocated instance: its class and, for `TypedData`-backed
instances, the wrapped host value (`obj_wrap_as`). -/
structure Instance where
  klass : Nat
  payload : Option (Nat × Nat)
deriving DecidableEq, Repr

/-- Running an allocator function on a class.  The magnus
`allocate::<T>` callback wraps `T::default()` for the invoking class
(`obj_wrap_as(T::default(), class)`); the others produce a plain
instance. -/
def runAllocFunc : AllocFunc → Nat → Instance
  | .typedDefault T, k => ⟨k, some (T.tyId, T.defaultVal)⟩
  | .classAllocateDefault, k => ⟨k, none⟩
  | .otherFn _, k => ⟨k, none⟩

/-- The per-class allocator-function slots (`rb_get_alloc_func` view);
`none` models a NULL / undefined allocator. -/
structure ClassTable where
  allocOf : Nat → Option AllocFunc

/-- `rb_define_alloc_func` / `rb_undef_alloc_func`: write one class's
allocator slot. -/
def ClassTable.setAlloc (ct : ClassTable) (c : Nat) (f : Option AllocFunc) : ClassTable :=
  ⟨fun k => if k = c then f else ct.allocOf k⟩

/-- `Class::define_alloc_func::<T>(self)`: first computes
`T::class()` and asserts it equals `self` (class object equality is
handle identity); on mismatch it panics — modelled as `none` — before
`rb_define_alloc_func` is reached, so no slot is written.  On match it
installs the `allocate::<T>` callback on `self`. -/
def define_alloc_func (ct : ClassTable) (self : Nat) (T : HostType) : Option ClassTable :=
  if T.classId = self then some (ct.setAlloc self (some (.typedDefault T)))
  else none

/-- The handle of the built-in `Object` class
(`Ruby::class_object()`), whose allocator is the generic default the
runtime starts every class tree with. -/
def classObjectId : Nat := 0

/-- Process state for `undef_default_alloc_func`: the class table plus
the one-shot memoization cell (`INIT: Once` together with the
`RB_CLASS_ALLOCATE_INSTANCE` static).  `none` means the `Once` has not
run yet; `some v` means it has run and captured `v` (itself an optional
function pointer). -/
structure AllocProcState where
  classes : ClassTable
  cachedDefault : Option (Option AllocFunc)

/-- The value the memoization cell holds after the `Once` has run: the
already-captured value if the cell is initialized, otherwise the
allocator of the `Object` class captured now (first call wins). -/
def resolvedCachedDefault (st : AllocProcState) : Option AllocFunc :=
  match st.cachedDefault with
  | some v => v
  | none => st.classes.allocOf classObjectId

/-- `Class::undef_default_alloc_func(self)`: run the one-shot
initializer capturing `rb_get_alloc_func(class_object())` on first use,
then clear `self`'s allocator slot (`rb_undef_alloc_func`) only when
`rb_get_alloc_func(self)` equals the captured generic default, and do
nothing otherwise. -/
def undef_default_alloc_func (st : AllocProcState) (c : Nat) : AllocProcState :=
  let cached := resolvedCachedDefault st
  let st1 : AllocProcState := { st with cachedDefault := some cached }
  if st1.classes.allocOf c = cached then
    { st1 with classes := st1.classes.setAlloc c none }
  else st1

/-! ## Runtime lifecycle (`embed.rs`)

`init()` calls `init_options(&["-e", ""])`; `init_options` guards the
whole body with a compare-and-exchange on the `INIT: AtomicBool` static.
The runtime's responses to the setup calls are inputs of the model; the
process state records the flag and how many times `ruby_setup` has been
executed. -/

/-- The embedded runtime's responses to the three checked setup steps of
`init_options`: `ruby_setup() == 0`, `ruby_executable_node(..) != 0` and
`ruby_exec_node(node) == 0`. -/
structure RuntimeBehavior where
  setupOk : Bool
  nodeExecutable : Bool
  execOk : Bool
deriving DecidableEq, Repr

/-- Process state of the lifecycle guard. -/
structure EmbedState where
  initFlag : Bool
  setupRuns : Nat
deriving DecidableEq, Repr

/-- The state of a process in which `init` has never been called. -/
def freshEmbed : EmbedState := ⟨false, 0⟩

/-- What a call to `init` / `init_options` does: return the `Cleanup`
guard, or panic at one of the four `panic!` sites. -/
inductive InitOutcome where
  | cleanup
  | panicSetupFailed
  | panicNotExecutable
  | panicExecFailed
  | panicAlreadyInit
deriving DecidableEq, Repr

/-- Every outcome except returning the guard is a panic (the function
has no error-returning path). -/
def InitOutcome.isPanic : InitOutcome → Bool
  | .cleanup => false
  | _ => true

/-- `embed::init_options` (and therefore `embed::init`): the
compare-and-exchange on `INIT` admits only the first call; the first
call runs `ruby_setup` exactly once and panics if it, or either of the
two exec-node steps, reports failure; any later call panics
immediately without touching the runtime. -/
def init_options (rb : RuntimeBehavior) (st : EmbedState) : InitOutcome × EmbedState :=
  if st.initFlag = false then
    let st2 : EmbedState := { initFlag := true, setupRuns := st.setupRuns + 1 }
    if rb.setupOk = false then (.panicSetupFailed, st2)
    else if rb.nodeExecutable = false then (.panicNotExecutable, st2)
    else if rb.execOk = false then (.panicExecFailed, st2)
    else (.cleanup, st2)
  else (.panicAlreadyInit, st)

/-- `embed::init()`: delegates to `init_options(&["-e", ""])`. -/
def init (rb : RuntimeBehavior) (st : EmbedState) : InitOutcome × EmbedState :=
  init_options rb st

/-- A whole process history of `init` calls. -/
def runInits : List RuntimeBehavior → EmbedState → EmbedState
  | [], st => st
  | rb :: rest, st => runInits rest (init rb st).2

/-! ## Claim theorems -/

/-- C1: For every handle `h` and every heap of runtime tags, the
tag-checked downcasts `RClass::from_value` and `RString::from_value`
return `Some` if and only if the runtime-reported representation tag of
`h` equals `RUBY_T_CLASS` resp. `RUBY_T_STRING`, and the `Some` result
wraps the same handle unchanged.  Both are total pure functions of the
handle and the tag heap: there is no other failure mode and no side
effect. -/
theorem from_value_some_iff_tag (heap : Nat → RubyValueType) (v : Value) :
    ((RClass.from_value heap v).isSome = true ↔ rbType heap v = .tClass) ∧
    ((RString.from_value heap v).isSome = true ↔ rbType heap v = .tString) ∧
    (∀ k, RClass.from_value heap v = some k → k.val = v) ∧
    (∀ s, RString.from_value heap v = some s → s.val = v) := by
  unfold RClass.from_value RString.from_value
  refine ⟨?_, ?_, ?_, ?_⟩
  · split <;> simp_all
  · split <;> simp_all
  · intro k
    split <;> intro h
    · exact (congrArg RClass.val (Option.some.inj h)).symm
    · cases h
  · intro s
    split <;> intro h
    · exact (congrArg RString.val (Option.some.inj h)).symm
    · cases h

/-- A concrete tag heap for the C1 witness: raw word 5 is a class
record, raw word 7 a string record, everything else nil. -/
def heapW : Nat → RubyValueType := fun n =>
  if n = 5 then .tClass else if n = 7 then .tString else .tNil

/-- Witness for C1 at concrete handles: the class downcast succeeds on
the class-tagged handle and the string downcast fails there. -/
theorem from_value_some_iff_tag_witness :
    (RClass.from_value heapW ⟨5⟩).isSome = true ∧
    ¬ (RString.from_value heapW ⟨5⟩).isSome = true ∧
    (RString.from_value heapW ⟨7⟩).isSome = true :=
  ⟨(from_value_some_iff_tag heapW ⟨5⟩).1.mpr (by decide),
    fun h => by
      have := (from_value_some_iff_tag heapW ⟨5⟩).2.1.mp h
      simp [rbType, heapW] at this,
    (from_value_some_iff_tag heapW ⟨7⟩).2.1.mpr (by decide)⟩

/-- C2: For every valid UTF-8 Rust string `s` — every `List Char`,
including the empty string and strings of any byte length, in particular
ones past the inline-storage limit and therefore heap-backed —
`RString::new(s)` followed by `to_string()` returns `Ok` of exactly
`s`. -/
theorem new_to_string_roundtrip (s : List Char) :
    (RStringRep.new s).to_string = .ok s := by
  simp [RStringRep.to_string, RStringRep.toUtf8, RStringRep.new, mkStr,
    RStringRep.is_utf8_compatible_encoding, rb_utf8_encindex, rb_usascii_encindex,
    utf8Decode_encode]

/-- C4: For every `n`, including `n = 0`, `RString::with_capacity(n)`
produces a string of length zero whose encoding is UTF-8 compatible
(and whose reserved capacity is `n`). -/
theorem with_capacity_spec (n : Nat) :
    (RStringRep.with_capacity n).bytes.length = 0 ∧
    (RStringRep.with_capacity n).is_utf8_compatible_encoding = true ∧
    (RStringRep.with_capacity n).capa = n :=
  ⟨rfl, rfl, rfl⟩

/-- C3: For every pair of strings whose encodings are incompatible,
`RString::append(a, b)` fails with an error whose Ruby exception class
is of kind `EncodingError` (the runtime raises
`Encoding::CompatibilityError`, a subclass), while `RString::cat(a,
bytes)` — which has no error path at all: its model, like the source, is
a total function — succeeds and leaves `a`'s byte content equal to the
raw concatenation of the two byte sequences, regardless of encoding
validity. -/
theorem append_cat_incompatible (a b : RStringRep)
    (h : RStringRep.encCompatible a b = false) :
    a.append b = .error ⟨.encodingCompatibilityError, "incompatible character encodings"⟩ ∧
    (∀ e, a.append b = .error e → e.excClass.isEncodingErrorKind = true) ∧
    (a.cat b.bytes).bytes = a.bytes ++ b.bytes ∧
    (∀ buf, (a.cat buf).bytes = a.bytes ++ buf) := by
  have happ : a.append b =
      .error ⟨.encodingCompatibilityError, "incompatible character encodings"⟩ := by
    unfold RStringRep.append
    rw [if_neg (by simp [h])]
  refine ⟨happ, ?_, rfl, fun buf => rfl⟩
  intro e he
  rw [happ] at he
  cases Except.error.inj he
  rfl

/-- A UTF-16BE-tagged string (not ASCII compatible), for the C3
witness. -/
def aIncompat : RStringRep := mkStr [0x00, 0x41] utf16be_encindex

/-- A UTF-8-tagged one-character string, for the C3 witness. -/
def bIncompat : RStringRep := RStringRep.new ['a']

/-- Witness for C3 at a concrete incompatible pair: the append fails
with the compatibility error while `cat` produces the raw byte
concatenation. -/
theorem append_cat_incompatible_witness :
    aIncompat.append bIncompat =
      .error ⟨.encodingCompatibilityError, "incompatible character encodings"⟩ ∧
    (aIncompat.cat bIncompat.bytes).bytes = [0x00, 0x41, 0x61] :=
  ⟨(append_cat_incompatible aIncompat bIncompat (by decide)).1,
    ((append_cat_incompatible aIncompat bIncompat (by decide)).2.2.1).trans (by decide)⟩

/-- C5: For every string `s`, `as_str(s)` returns an `EncodingError` if
`s`'s encoding tag is not UTF-8 compatible; it returns an
`EncodingError` also when the tag is UTF-8 compatible but the bytes fail
UTF-8 validation; and it returns `Ok` of the decoded text exactly when
the tag is UTF-8 compatible and the bytes validate as UTF-8. -/
theorem as_str_spec (s : RStringRep) :
    (s.is_utf8_compatible_encoding = false →
      s.as_str = .error (Error.encoding_error ("expected utf-8, got " ++ encName s.encindex))) ∧
    (s.is_utf8_compatible_encoding = true → utf8Decode s.bytes = none →
      s.as_str = .error (Error.encoding_error "invalid utf-8 byte sequence")) ∧
    (∀ cs, s.as_str = .ok cs ↔
      s.is_utf8_compatible_encoding = true ∧ utf8Decode s.bytes = some cs) := by
  refine ⟨?_, ?_, ?_⟩
  · intro h
    unfold RStringRep.as_str
    rw [if_pos h]
  · intro h hdec
    unfold RStringRep.as_str
    rw [if_neg (by simp [h]), hdec]
  · intro cs
    by_cases hc : s.is_utf8_compatible_encoding = false
    · unfold RStringRep.as_str
      rw [if_pos hc]
      simp [hc]
    · have hc' : s.is_utf8_compatible_encoding = true := by
        cases h : s.is_utf8_compatible_encoding
        · exact absurd h hc
        · rfl
      unfold RStringRep.as_str
      rw [if_neg hc]
      cases hdec : utf8Decode s.bytes with
      | none => simp [hc', hdec]
      | some cs2 => simp [hc', hdec, eq_comm]

/-- A binary-tagged string, for the C5 witness. -/
def sBinC5 : RStringRep := RStringRep.from_slice [0xFF]

/-- A UTF-8-tagged string whose bytes are invalid UTF-8 (an overlong
two-byte form), for the C5 witness. -/
def sBadC5 : RStringRep := mkStr [0xC0, 0x80] rb_utf8_encindex

/-- A well-formed UTF-8-tagged string, for the C5 witness. -/
def sGoodC5 : RStringRep := RStringRep.new ['h', 'i']

/-- Witness for C5 at concrete strings covering all three clauses:
wrong tag, right tag with invalid bytes, and the successful decode. -/
theorem as_str_spec_witness :
    sBinC5.as_str =
      .error (Error.encoding_error ("expected utf-8, got " ++ encName sBinC5.encindex)) ∧
    sBadC5.as_str = .error (Error.encoding_error "invalid utf-8 byte sequence") ∧
    sGoodC5.as_str = .ok ['h', 'i'] :=
  ⟨(as_str_spec sBinC5).1 (by decide),
    (as_str_spec sBadC5).2.1 (by decide) (by decide),
    ((as_str_spec sGoodC5).2.2 ['h', 'i']).mpr ⟨by decide, by decide⟩⟩

/-- C6: For every string `s`, `to_char(s)` first runs the
re-encode/validate-to-UTF-8 step (`toUtf8`, the shared first clause of
`to_string`/`to_char`), propagating that step's encoding error if it
fails; when that step succeeds but the resulting bytes fail UTF-8
validation, it fails with the corresponding `EncodingError`; then, if
the decoded text does not consist of exactly one character (length zero
or at least two), it fails with a `TypeError`; and it returns `Ok(c)`
exactly when the pipeline decodes to the single character `c`. -/
theorem to_char_spec (s : RStringRep) :
    (∀ e, s.toUtf8 = .error e → s.to_char = .error e) ∧
    (∀ u, s.toUtf8 = .ok u → utf8Decode u.bytes = none →
      s.to_char = .error (Error.encoding_error "invalid utf-8 byte sequence")) ∧
    (∀ u cs, s.toUtf8 = .ok u → utf8Decode u.bytes = some cs → cs.length ≠ 1 →
      s.to_char = .error (Error.type_error "could not convert string to char")) ∧
    (∀ c, s.to_char = .ok c ↔ ∃ u, s.toUtf8 = .ok u ∧ utf8Decode u.bytes = some [c]) := by
  refine ⟨?_, ?_, ?_, ?_⟩
  · intro e he
    unfold RStringRep.to_char
    rw [he]
  · intro u hu hdec
    simp only [RStringRep.to_char, hu, hdec]
  · intro u cs hu hdec hne
    simp only [RStringRep.to_char, hu, hdec]
    rcases cs with _ | ⟨c2, _ | ⟨c3, t⟩⟩
    · rfl
    · exact absurd rfl hne
    · rfl
  · intro c
    constructor
    · intro h
      unfold RStringRep.to_char at h
      cases hu : s.toUtf8 with
      | error e => rw [hu] at h; cases h
      | ok u =>
        simp only [hu] at h
        cases hdec : utf8Decode u.bytes with
        | none => rw [hdec] at h; cases h
        | some cs =>
          rw [hdec] at h
          rcases cs with _ | ⟨c2, _ | ⟨c3, t⟩⟩
          · cases h
          · have hc : c2 = c := Except.ok.inj h
            refine ⟨u, rfl, ?_⟩
            rw [hc] at hdec
            exact hdec
          · cases h
    · rintro ⟨u, hu, hdec⟩
      simp only [RStringRep.to_char, hu, hdec]
      rfl

/-- A UTF-16BE-tagged string holding the letter a, for the C6
witness. -/
def sUtf16C6 : RStringRep := mkStr [0x00, 0x61] utf16be_encindex

/-- The result of re-encoding `sUtf16C6` to UTF-8, for the C6
witness. -/
def sUtf16C6Conv : RStringRep :=
  { bytes := [0x61], encindex := rb_utf8_encindex, capa := 2, noembed := false }

/-- A UTF-16BE-tagged string with a truncated byte sequence, for the C6
witness. -/
def sBadUtf16C6 : RStringRep := mkStr [0xD8] utf16be_encindex

/-- A UTF-8-tagged string whose bytes are invalid UTF-8, for the C6
witness: the conversion step passes it through unchanged and the
validation step rejects it. -/
def sBadUtf8C6 : RStringRep := mkStr [0xFF] rb_utf8_encindex

/-- Witness for C6 at concrete strings: the conversion step error
propagates, invalid bytes under a UTF-8 tag give the encoding error,
and the single-character success case round-trips. -/
theorem to_char_spec_witness :
    sBadUtf16C6.to_char = .error ⟨.invalidByteSequenceError, "invalid byte sequence"⟩ ∧
    sBadUtf8C6.to_char = .error (Error.encoding_error "invalid utf-8 byte sequence") ∧
    sUtf16C6.to_char = .ok 'a' :=
  ⟨(to_char_spec sBadUtf16C6).1 ⟨.invalidByteSequenceError, "invalid byte sequence"⟩ rfl,
    (to_char_spec sBadUtf8C6).2.1 sBadUtf8C6 rfl (by decide),
    ((to_char_spec sUtf16C6).2.2.2 'a').mpr ⟨sUtf16C6Conv, rfl, by decide⟩⟩

/-- C7: For every class table, class handle `self` and host type `T`,
`Class::define_alloc_func::<T>(self)` panics — modelled as `none`, with
no successor state and therefore no slot written — whenever `self`
differs from `T`'s statically associated class, the assertion sitting
before the `rb_define_alloc_func` call; when they agree, the call
installs on `self` the `allocate::<T>` callback, which produces a
`T::default()`-backed instance when the runtime invokes it. -/
theorem define_alloc_func_spec (ct : ClassTable) (self : Nat) (T : HostType) :
    (T.classId ≠ self → define_alloc_func ct self T = none) ∧
    (T.classId = self →
      define_alloc_func ct self T = some (ct.setAlloc self (some (.typedDefault T))) ∧
      (ct.setAlloc self (some (.typedDefault T))).allocOf self = some (.typedDefault T) ∧
      runAllocFunc (.typedDefault T) self = ⟨self, some (T.tyId, T.defaultVal)⟩) := by
  constructor
  · intro h
    unfold define_alloc_func
    rw [if_neg h]
  · intro h
    refine ⟨?_, ?_, rfl⟩
    · unfold define_alloc_func
      rw [if_pos h]
    · simp [ClassTable.setAlloc]

/-- A host type associated with class handle 5, for the C7 witness. -/
def hostT7 : HostType := ⟨1, 5, 42⟩

/-- An empty class table, for the C7 witness. -/
def ct7 : ClassTable := ⟨fun _ => none⟩

/-- Witness for C7: on the sibling class 3 the call panics with no
allocator installed; on the associated class 5 it installs the
`T::default()`-producing allocator. -/
theorem define_alloc_func_spec_witness :
    define_alloc_func ct7 3 hostT7 = none ∧
    define_alloc_func ct7 5 hostT7 = some (ct7.setAlloc 5 (some (.typedDefault hostT7))) ∧
    runAllocFunc (.typedDefault hostT7) 5 = ⟨5, some (1, 42)⟩ :=
  ⟨(define_alloc_func_spec ct7 3 hostT7).1 (by decide),
    ((define_alloc_func_spec ct7 5 hostT7).2 rfl).1,
    ((define_alloc_func_spec ct7 5 hostT7).2 rfl).2.2⟩

/-- C8: `undef_default_alloc_func(c)` clears `c`'s allocator slot when
the slot's current value equals the memoized generic-default-allocator
reference, is a no-op on every allocator slot otherwise (and on every
slot other than `c`'s in either case), and manages the reference value
with a one-shot first-call-wins initializer: after any call the cell is
filled with `resolvedCachedDefault` of the pre-call state, which is the
previously captured value whenever the cell was already filled — so the
value captured by the first call is reused by every later call. -/
theorem undef_default_alloc_func_spec (st : AllocProcState) (c : Nat) :
    ((undef_default_alloc_func st c).classes.allocOf c =
      (if st.classes.allocOf c = resolvedCachedDefault st then none
        else st.classes.allocOf c)) ∧
    (∀ k, k ≠ c → (undef_default_alloc_func st c).classes.allocOf k = st.classes.allocOf k) ∧
    ((undef_default_alloc_func st c).cachedDefault = some (resolvedCachedDefault st)) ∧
    (∀ v, st.cachedDefault = some v → resolvedCachedDefault st = v) := by
  refine ⟨?_, ?_, ?_, ?_⟩
  · unfold undef_default_alloc_func
    by_cases h : st.classes.allocOf c = resolvedCachedDefault st
    · rw [if_pos h, if_pos h]
      simp [ClassTable.setAlloc]
    · rw [if_neg h, if_neg h]
  · intro k hk
    unfold undef_default_alloc_func
    by_cases h : st.classes.allocOf c = resolvedCachedDefault st
    · rw [if_pos h]
      simp [ClassTable.setAlloc, hk]
    · rw [if_neg h]
  · unfold undef_default_alloc_func
    by_cases h : st.classes.allocOf c = resolvedCachedDefault st
    · rw [if_pos h]
    · rw [if_neg h]
  · intro v hv
    unfold resolvedCachedDefault
    rw [hv]

/-- A class table for the C8 witness: the Object class (handle 0) and
class 1 hold the generic default allocator, class 2 holds a host
allocator. -/
def ct8 : ClassTable :=
  ⟨fun k =>
    if k = 0 then some .classAllocateDefault
    else if k = 1 then some .classAllocateDefault
    else if k = 2 then some (.otherFn 9) else none⟩

/-- The C8 witness state before any memoization. -/
def st8 : AllocProcState := ⟨ct8, none⟩

/-- The C8 witness state with the cell already filled by a first
call. -/
def st8' : AllocProcState := ⟨ct8, some (some .classAllocateDefault)⟩

/-- Witness for C8: the still-default class 1 is cleared, the
host-allocated class 2 is untouched, the cell ends up filled, and a
filled cell resolves to its stored value. -/
theorem undef_default_alloc_func_spec_witness :
    (undef_default_alloc_func st8 1).classes.allocOf 1 =
      (if st8.classes.allocOf 1 = resolvedCachedDefault st8 then none
        else st8.classes.allocOf 1) ∧
    (undef_default_alloc_func st8 1).classes.allocOf 2 = st8.classes.allocOf 2 ∧
    (undef_default_alloc_func st8 1).cachedDefault = some (resolvedCachedDefault st8) ∧
    resolvedCachedDefault st8' = some .classAllocateDefault :=
  ⟨(undef_default_alloc_func_spec st8 1).1,
    (undef_default_alloc_func_spec st8 1).2.1 2 (by decide),
    (undef_default_alloc_func_spec st8 1).2.2.1,
    (undef_default_alloc_func_spec st8' 1).2.2.2 (some .classAllocateDefault) rfl⟩

/-- Bound on how often `ruby_setup` can have run after any sequence of
`init` calls: at most once from a state that has not initialized yet,
never again from a state that has. -/
theorem runInits_setupRuns_le (calls : List RuntimeBehavior) :
    ∀ st : EmbedState,
      (runInits calls st).setupRuns ≤ st.setupRuns + (if st.initFlag then 0 else 1) := by
  induction calls with
  | nil =>
    intro st
    rw [runInits]
    split <;> omega
  | cons rb rest ih =>
    intro st
    rw [runInits]
    cases hf : st.initFlag with
    | false =>
      have h2 : (init rb st).2 = ⟨true, st.setupRuns + 1⟩ := by
        unfold init init_options
        rw [if_pos hf]
        split <;> [rfl; (split <;> [rfl; (split <;> rfl)])]
      have hb := ih (init rb st).2
      rw [h2] at hb ⊢
      simpa using hb
    | true =>
      have h2 : (init rb st).2 = st := by
        unfold init init_options
        rw [if_neg (by simp [hf])]
      have hb := ih st
      rw [h2]
      simp [hf] at hb ⊢
      exact hb

/-- C9: `embed::init` is one-shot per process.  From the fresh state the
first call runs `ruby_setup` exactly once; it panics — the return type
has no error alternative, the only outcomes are the `Cleanup` guard and
the four panics — when the setup step reports failure, and returns the
`Cleanup` guard when the runtime reports success on all setup steps.
Any call on an already-initialized state panics immediately and leaves
the state untouched, and over every possible call history of a process
the underlying setup runs at most once. -/
theorem init_one_shot (rb : RuntimeBehavior) (st : EmbedState) :
    (st.initFlag = false →
      (init rb st).2.setupRuns = st.setupRuns + 1 ∧
      (rb.setupOk = false → (init rb st).1 = .panicSetupFailed) ∧
      (rb.setupOk = true → rb.nodeExecutable = true → rb.execOk = true →
        (init rb st).1 = .cleanup)) ∧
    (st.initFlag = true → init rb st = (.panicAlreadyInit, st)) ∧
    (∀ calls, (runInits calls freshEmbed).setupRuns ≤ 1) := by
  refine ⟨?_, ?_, ?_⟩
  · intro hf
    refine ⟨?_, ?_, ?_⟩
    · unfold init init_options
      rw [if_pos hf]
      split <;> [rfl; (split <;> [rfl; (split <;> rfl)])]
    · intro hs
      unfold init init_options
      rw [if_pos hf, if_pos hs]
    · intro hs hn he
      unfold init init_options
      rw [if_pos hf, if_neg (by simp [hs]), if_neg (by simp [hn]), if_neg (by simp [he])]
  · intro hf
    unfold init init_options
    rw [if_neg (by simp [hf])]
  · intro calls
    have h := runInits_setupRuns_le calls freshEmbed
    simpa [freshEmbed] using h

/-- A runtime that reports success on every setup step, for the C9
witness. -/
def rbOk : RuntimeBehavior := ⟨true, true, true⟩

/-- A runtime whose `ruby_setup` reports failure, for the C9 witness. -/
def rbBad : RuntimeBehavior := ⟨false, true, true⟩

/-- Witness for C9: the first call from the fresh state returns the
guard having run setup once; a second call panics; a failing setup step
panics; and a three-call history still runs setup at most once. -/
theorem init_one_shot_witness :
    (init rbOk freshEmbed).1 = .cleanup ∧
    (init rbOk freshEmbed).2.setupRuns = 1 ∧
    (init rbOk (init rbOk freshEmbed).2).1 = .panicAlreadyInit ∧
    (init rbBad freshEmbed).1 = .panicSetupFailed ∧
    (runInits [rbOk, rbOk, rbBad] freshEmbed).setupRuns ≤ 1 :=
  ⟨((init_one_shot rbOk freshEmbed).1 rfl).2.2 rfl rfl rfl,
    ((init_one_shot rbOk freshEmbed).1 rfl).1,
    congrArg Prod.fst
      ((init_one_shot rbOk (init rbOk freshEmbed).2).2.1 (by decide)),
    ((init_one_shot rbBad freshEmbed).1 rfl).2.1 rfl,
    (init_one_shot rbOk freshEmbed).2.2 [rbOk, rbOk, rbBad]⟩

/-- C10: For every Rust `char` `c`, `RString::from_char(c)` followed by
`to_char()` returns `Ok(c)`: `from_char` produces a UTF-8-tagged string
holding exactly the UTF-8 encoding of `c`, which `to_char` decodes and
parses back. -/
theorem from_char_to_char_roundtrip (c : Char) :
    (RStringRep.from_char c).to_char = .ok c := by
  simp [RStringRep.to_char, RStringRep.toUtf8, RStringRep.from_char, RStringRep.new, mkStr,
    RStringRep.is_utf8_compatible_encoding, rb_utf8_encindex, rb_usascii_encindex,
    utf8Decode_encode, RStringRep.parseChar]

end Magnus
